import Mathlib

/-!
A shallow Lean embedding of the `aiosolr` client library (files
`aiosolr/utils.py`, `aiosolr/error_extractor.py`, `aiosolr/aiosolr.py`,
`aiosolr/result_cls.py`), together with theorems settling the frozen
claims about its specification.

Conventions of the embedding:
* Python exceptions are modelled by the `PyErr` type; fallible code
  returns `Except PyErr _`.
* Python values (the dynamic universe the codec and the result wrapper
  operate on) are modelled by `PyValue`.  Floating-point and complex
  scalars are outside the modelled universe (no claim touches them);
  `bool` is kept distinct from `int` but every `isinstance(.., int)`
  test in the source is translated so that it also accepts booleans,
  mirroring Python's `bool <: int` subtyping.
* External library functions used by the source (the strict XML parser
  `xml.etree.ElementTree.fromstring`, its serializer `tostring`, the
  `re` search for `<h1>` tags, the HTML named-entity table, and the
  JSON decode performed by the HTTP response object) are parameters of
  the embedding (`PyLib`, `Resp.jsonResult`): the claims are settled
  for every behaviour of these collaborators unless a claim pins a
  concrete one.
* Python `str.strip()` is modelled by `String.trim` (the source only
  ever strips ordinary ASCII whitespace in the claims' scenarios), and
  `\w` in regular expressions by ASCII alphanumerics plus underscore.
-/

/-- Python exceptions raised (or caught) by the modelled code paths. -/
inductive PyErr where
  | valueError
  | indexError
  | keyError
  | attributeError
  | typeError
  | unicodeDecodeError
  deriving DecidableEq, Repr

/-- The fragment of Python's value universe the library manipulates:
`None`, booleans, integers, text strings, byte strings, lists, tuples,
dicts with string keys, and the two `datetime` classes (`datetime.date`
and `datetime.datetime`, without microseconds/timezones, which the
source never produces). -/
inductive PyValue where
  | none
  | bool (b : Bool)
  | int (n : Int)
  | str (s : String)
  | bytes (bs : List Nat)
  | list (xs : List PyValue)
  | tuple (xs : List PyValue)
  | dict (kvs : List (String × PyValue))
  | date (y mo d : Nat)
  | datetime (y mo d h mi s : Nat)

/-- Zero-pad a natural number to two digits (Python `%02d`, as used by
`datetime.isoformat`). -/
def pad2 (n : Nat) : String :=
  if n < 10 then "0" ++ toString n else toString n

/-- Zero-pad a natural number to four digits (the year field of
`datetime.isoformat`). -/
def pad4 (n : Nat) : String :=
  if n < 10 then "000" ++ toString n
  else if n < 100 then "00" ++ toString n
  else if n < 1000 then "0" ++ toString n
  else toString n

/-- Python `date.isoformat()`: `YYYY-MM-DD`. -/
def dateIso (y mo d : Nat) : String :=
  pad4 y ++ "-" ++ pad2 mo ++ "-" ++ pad2 d

/-- Python `datetime.isoformat()` without microseconds: `YYYY-MM-DDTHH:MM:SS`. -/
def datetimeIso (y mo d h mi s : Nat) : String :=
  dateIso y mo d ++ "T" ++ pad2 h ++ ":" ++ pad2 mi ++ ":" ++ pad2 s

mutual

/-- Python `str(value)` on the modelled universe.  Container reprs are
rendered without the escaping Python's `repr` applies inside string
literals (no claim evaluates those cases). -/
def pyStr : PyValue → String
  | .none => "None"
  | .bool true => "True"
  | .bool false => "False"
  | .int n => toString n
  | .str s => s
  | .bytes bs => "b\x27" ++ String.mk (bs.map Char.ofNat) ++ "\x27"
  | .list xs => "[" ++ ", ".intercalate (pyReprList xs) ++ "]"
  | .tuple [x] => "(" ++ pyRepr x ++ ",)"
  | .tuple xs => "(" ++ ", ".intercalate (pyReprList xs) ++ ")"
  | .dict kvs => "\x7b" ++ ", ".intercalate (pyReprDict kvs) ++ "\x7d"
  | .date y mo d => dateIso y mo d
  | .datetime y mo d h mi s => dateIso y mo d ++ " " ++ pad2 h ++ ":" ++ pad2 mi ++ ":" ++ pad2 s

/-- Python `repr(value)` (as used for elements inside container
`str`s); strings gain quotes, the rest matches `pyStr`. -/
def pyRepr : PyValue → String
  | .str s => "\x27" ++ s ++ "\x27"
  | v => pyStr v

/-- Apply `repr` to each element of a list. -/
def pyReprList : List PyValue → List String
  | [] => []
  | x :: xs => pyRepr x :: pyReprList xs

/-- Apply `repr` to each entry of a dict. -/
def pyReprDict : List (String × PyValue) → List String
  | [] => []
  | (k, v) :: kvs => ("\x27" ++ k ++ "\x27: " ++ pyRepr v) :: pyReprDict kvs

end

/-- Python truthiness (`bool(value)`) on the modelled universe. -/
def pyTruthy : PyValue → Bool
  | .none => false
  | .bool b => b
  | .int n => n != 0
  | .str s => s != ""
  | .bytes bs => !bs.isEmpty
  | .list xs => !xs.isEmpty
  | .tuple xs => !xs.isEmpty
  | .dict kvs => !kvs.isEmpty
  | .date _ _ _ => true
  | .datetime _ _ _ _ _ _ => true

/-- Is a byte a UTF-8 continuation byte (`0x80–0xBF`)? -/
def isCont (b : Nat) : Bool := 0x80 ≤ b && b ≤ 0xBF

/-- One step of strict UTF-8 decoding: decode the first scalar of the
byte list, returning the code point and the remaining bytes, or `none`
on an invalid prefix.  The accepted forms are exactly those of
well-formed UTF-8 (no overlong forms, no surrogates, max U+10FFFF),
matching Python's strict `bytes.decode()`. -/
def utf8Step : List Nat → Option (Nat × List Nat)
  | [] => Option.none
  | b :: bs =>
    if b ≤ 0x7F then some (b, bs)
    else if 0xC2 ≤ b && b ≤ 0xDF then
      match bs with
      | c1 :: bs' =>
        if isCont c1 then some ((b - 0xC0) * 0x40 + (c1 - 0x80), bs') else Option.none
      | [] => Option.none
    else if 0xE0 ≤ b && b ≤ 0xEF then
      match bs with
      | c1 :: c2 :: bs' =>
        let okC1 :=
          if b = 0xE0 then 0xA0 ≤ c1 && c1 ≤ 0xBF
          else if b = 0xED then 0x80 ≤ c1 && c1 ≤ 0x9F
          else isCont c1
        if okC1 && isCont c2 then
          some ((b - 0xE0) * 0x1000 + (c1 - 0x80) * 0x40 + (c2 - 0x80), bs')
        else Option.none
      | _ => Option.none
    else if 0xF0 ≤ b && b ≤ 0xF4 then
      match bs with
      | c1 :: c2 :: c3 :: bs' =>
        let okC1 :=
          if b = 0xF0 then 0x90 ≤ c1 && c1 ≤ 0xBF
          else if b = 0xF4 then 0x80 ≤ c1 && c1 ≤ 0x8F
          else isCont c1
        if okC1 && isCont c2 && isCont c3 then
          some ((b - 0xF0) * 0x40000 + (c1 - 0x80) * 0x1000 + (c2 - 0x80) * 0x40 + (c3 - 0x80), bs')
        else Option.none
      | _ => Option.none
    else Option.none

/-- Fuelled strict UTF-8 decoding loop. -/
def utf8DecodeGo (fuel : Nat) (l : List Nat) : Option (List Char) :=
  match fuel with
  | 0 => match l with | [] => some [] | _ :: _ => Option.none
  | fuel + 1 =>
    match l with
    | [] => some []
    | _ :: _ =>
      match utf8Step l with
      | some (cp, rest) => (utf8DecodeGo fuel rest).map (fun cs => Char.ofNat cp :: cs)
      | Option.none => Option.none

/-- Python `bytes.decode()` with strict (default) error handling:
`none` models a raised `UnicodeDecodeError`. -/
def utf8Decode (l : List Nat) : Option String :=
  (utf8DecodeGo l.length l).map String.mk

/-- Fuelled replacing UTF-8 decoding loop: an undecodable position
becomes U+FFFD and one byte is skipped (a simplification of CPython's
maximal-subpart replacement, indistinguishable on the inputs the
claims touch). -/
def utf8DecodeReplaceGo (fuel : Nat) (l : List Nat) : List Char :=
  match fuel with
  | 0 => []
  | fuel + 1 =>
    match l with
    | [] => []
    | b :: bs =>
      match utf8Step (b :: bs) with
      | some (cp, rest) => Char.ofNat cp :: utf8DecodeReplaceGo fuel rest
      | Option.none => Char.ofNat 0xFFFD :: utf8DecodeReplaceGo fuel bs

/-- Python `bytes.decode('utf-8', errors='replace')`. -/
def utf8DecodeReplace (l : List Nat) : String :=
  String.mk (utf8DecodeReplaceGo l.length l)

/-- UTF-8 encoding of one code point (the source strings fed to
`quote_plus` contain scalar values only). -/
def utf8EncodeChar (c : Char) : List Nat :=
  let n := c.toNat
  if n ≤ 0x7F then [n]
  else if n ≤ 0x7FF then [0xC0 + n / 0x40, 0x80 + n % 0x40]
  else if n ≤ 0xFFFF then
    [0xE0 + n / 0x1000, 0x80 + n / 0x40 % 0x40, 0x80 + n % 0x40]
  else
    [0xF0 + n / 0x40000, 0x80 + n / 0x1000 % 0x40, 0x80 + n / 0x40 % 0x40, 0x80 + n % 0x40]

/-- Embeds `utils.force_bytes`: a `str` is UTF-8 encoded, anything else is
returned unchanged (the `backslashreplace` handler never fires because
UTF-8 can encode every scalar). -/
def force_bytes : PyValue → PyValue
  | .str s => .bytes (s.toList.flatMap utf8EncodeChar)
  | v => v

/-- Embeds `utils.force_unicode`: bytes are decoded with replacement, strings
pass through, anything else goes through `str(value)`. -/
def force_unicode : PyValue → String
  | .bytes bs => utf8DecodeReplace bs
  | .str s => s
  | v => pyStr v

/-- Embeds `utils.is_valid_xml_char_ordinal`. -/
def is_valid_xml_char_ordinal (i : Nat) : Bool :=
  (0x20 ≤ i && i ≤ 0xD7FF)
    || (i = 0x9 || i = 0xA || i = 0xD)
    || (0xE000 ≤ i && i ≤ 0xFFFD)
    || (0x10000 ≤ i && i ≤ 0x10FFFF)

/-- Embeds `utils.clean_xml_string`: drop characters whose ordinal is not
XML-valid. -/
def clean_xml_string (s : String) : String :=
  String.mk (s.toList.filter (fun c => is_valid_xml_char_ordinal c.toNat))

/-- Embeds `utils.is_null_value`: `None` and the empty string are null,
everything else (including `0`, `False` and empty sequences) is not. -/
def is_null_value : PyValue → Bool
  | .none => true
  | .str "" => true
  | _ => false

/-- Embeds `utils.from_python` (the wire encoder `to_wire`): dates/datetimes
become ISO-8601 with a trailing `Z` (a date gains `T00:00:00Z`),
booleans become lower-case `true`/`false`, bytes are decoded with
replacement, everything else is `str`-formatted; the result is cleaned
of XML-invalid characters. -/
def from_python (value : PyValue) : String :=
  match value with
  | .datetime y mo d h mi s => clean_xml_string (datetimeIso y mo d h mi s ++ "Z")
  | .date y mo d => clean_xml_string (dateIso y mo d ++ "T00:00:00Z")
  | .bool true => clean_xml_string "true"
  | .bool false => clean_xml_string "false"
  | .bytes bs => clean_xml_string (utf8DecodeReplace bs)
  | v => clean_xml_string (pyStr v)

/-- The anchored timestamp pattern `DATETIME_REGEX`:
`^(\d{4})-(\d{2})-(\d{2})T(\d{2}):(\d{2}):(\d{2})(\.\d+)?Z$`, returning
the six named numeric groups.  `\d` is modelled as the ASCII digits. -/
def datetimeRegexMatch (s : String) : Option (Nat × Nat × Nat × Nat × Nat × Nat) :=
  match s.toList with
  | [y1, y2, y3, y4, d1, m1, m2, d2, dd1, dd2, t, h1, h2, c1, mi1, mi2, c2, s1, s2] =>
    if [y1, y2, y3, y4, m1, m2, dd1, dd2, h1, h2, mi1, mi2, s1, s2].all Char.isDigit
        && d1 = '-' && d2 = '-' && t = 'T' && c1 = ':' && c2 = ':' then
      let num2 := fun (a b : Char) => (a.toNat - 48) * 10 + (b.toNat - 48)
      some ((num2 y1 y2) * 100 + num2 y3 y4, num2 m1 m2, num2 dd1 dd2,
            num2 h1 h2, num2 mi1 mi2, num2 s1 s2)
    else Option.none
  | l =>
    -- with the optional fractional-seconds group: 19-char prefix, '.',
    -- one or more digits, then 'Z'
    match l with
    | y1 :: y2 :: y3 :: y4 :: d1 :: m1 :: m2 :: d2 :: dd1 :: dd2 :: t :: h1 :: h2 :: c1
        :: mi1 :: mi2 :: c2 :: s1 :: s2 :: '.' :: rest =>
      if [y1, y2, y3, y4, m1, m2, dd1, dd2, h1, h2, mi1, mi2, s1, s2].all Char.isDigit
          && d1 = '-' && d2 = '-' && t = 'T' && c1 = ':' && c2 = ':'
          && rest ≠ ['Z'] && rest.dropLast.all Char.isDigit && rest.dropLast ≠ []
          && rest.getLast? = some 'Z' then
        let num2 := fun (a b : Char) => (a.toNat - 48) * 10 + (b.toNat - 48)
        some ((num2 y1 y2) * 100 + num2 y3 y4, num2 m1 m2, num2 dd1 dd2,
              num2 h1 h2, num2 mi1 mi2, num2 s1 s2)
      else Option.none
    | _ => Option.none

/-- Days in a month, with the Gregorian leap rule (as validated by
`datetime.datetime`). -/
def daysInMonth (y mo : Nat) : Nat :=
  if mo = 2 then
    if y % 4 = 0 && (y % 100 ≠ 0 || y % 400 = 0) then 29 else 28
  else if mo = 4 || mo = 6 || mo = 9 || mo = 11 then 30
  else 31

/-- The `datetime.datetime(...)` constructor with its range validation
(`ValueError` outside `1 ≤ year ≤ 9999`, calendar-valid month/day,
clock-valid time). -/
def pyDatetimeMk (y mo d h mi s : Nat) : Except PyErr PyValue :=
  if 1 ≤ y && y ≤ 9999 && 1 ≤ mo && mo ≤ 12 && 1 ≤ d && d ≤ daysInMonth y mo
      && h ≤ 23 && mi ≤ 59 && s ≤ 59 then
    .ok (.datetime y mo d h mi s)
  else .error .valueError

/-- The linear tail of `utils.to_python` after the sequence extraction:
compare against `'true'`/`'false'`, decode bytes, try the timestamp
pattern on strings, then fall back to `ast.literal_eval` (modelled by
the parameter `lev`, with `Option.none` standing for the caught
`ValueError`/`SyntaxError`) and finally return the value unchanged. -/
def toPythonTail (lev : String → Option PyValue) (value : PyValue) : Except PyErr PyValue :=
  match value with
  | .str "true" => .ok (.bool true)
  | .str "false" => .ok (.bool false)
  | value =>
    let value : PyValue := match value with
      | .bytes bs => .str (utf8DecodeReplace bs)
      | v => v
    match value with
    | .str s =>
      match datetimeRegexMatch s with
      | some (y, mo, d, h, mi, sec) => pyDatetimeMk y mo d h mi sec
      | Option.none =>
        match lev s with
        | some v => .ok v
        | Option.none => .ok (.str s)
    | v => .ok v

/-- Embeds `utils.to_python` (the wire decoder `from_wire`): numbers (which in
Python includes booleans) pass through; a list or tuple is replaced by
its first element (`IndexError` when empty); then the linear tail
applies. -/
def to_python (lev : String → Option PyValue) (value : PyValue) : Except PyErr PyValue :=
  match value with
  | .int _ => .ok value
  | .bool _ => .ok value
  | .list [] => .error .indexError
  | .tuple [] => .error .indexError
  | .list (x :: _) => toPythonTail lev x
  | .tuple (x :: _) => toPythonTail lev x
  | v => toPythonTail lev v

/-- Python `dict` assignment `m[k] = v` on an insertion-ordered
association list: an existing key keeps its position and gets the new
value, a new key is appended. -/
def pyDictSet (m : List (String × String)) (k v : String) : List (String × String) :=
  match m with
  | [] => [(k, v)]
  | (k', v') :: rest => if k' = k then (k', v) :: rest else (k', v') :: pyDictSet rest k v

/-- The metadata-unpacking loop of `Solr.extract`
(`while raw_metadata: metadata[raw_metadata.pop()] = raw_metadata.pop()`):
the right-hand `pop()` runs first and takes the value from the end of
the list, the subscript `pop()` then takes the key; an odd-length blob
raises `IndexError` on the final iteration.  Consuming from the end is
modelled by walking the reversed list. -/
def unpackMetadataGo : List String → List (String × String) → Except PyErr (List (String × String))
  | [], m => .ok m
  | [_], _ => .error .indexError
  | v :: k :: rest, m => unpackMetadataGo rest (pyDictSet m k v)

/-- Embeds `Solr.extract`'s treatment of the raw metadata blob: an empty (or
absent, i.e. falsy) blob leaves the metadata map empty, otherwise the
pair-consuming loop runs. -/
def unpackMetadata (raw : List String) : Except PyErr (List (String × String)) :=
  if raw.isEmpty then .ok [] else unpackMetadataGo raw.reverse []

/-- Flatten a key/value pair list into the wire form of the metadata
blob (`[k1, v1, k2, v2, ...]`). -/
def flattenPairs : List (String × String) → List String
  | [] => []
  | (k, v) :: rest => k :: v :: flattenPairs rest

/-- Embeds `Solr.delete` up to the point the control message is built: exactly
one of `id`/`q` must be given, otherwise a `ValueError` is raised
before any request is built or sent. -/
def deleteMsg (id q : Option String) : Except PyErr String :=
  match id, q with
  | Option.none, Option.none => .error .valueError
  | some _, some _ => .error .valueError
  | some i, Option.none => .ok ("<delete><id>" ++ i ++ "</id></delete>")
  | Option.none, some qq => .ok ("<delete><query>" ++ qq ++ "</query></delete>")

theorem flattenPairs_append (ps : List (String × String)) (k v : String) :
    flattenPairs (ps ++ [(k, v)]) = flattenPairs ps ++ [k, v] := by
  induction ps with
  | nil => rfl
  | cons p rest ih => cases p; simp [flattenPairs, ih]

theorem pyDictSet_fresh (m : List (String × String)) (k v : String)
    (h : k ∉ m.map Prod.fst) : pyDictSet m k v = m ++ [(k, v)] := by
  induction m with
  | nil => rfl
  | cons p rest ih =>
    cases p with
    | mk k' v' =>
      simp only [List.map_cons, List.mem_cons] at h
      push_neg at h
      simp [pyDictSet, Ne.symm h.1, ih h.2]

theorem unpackMetadataGo_flatten (pairs : List (String × String)) :
    ∀ acc : List (String × String), (pairs.map Prod.fst).Nodup →
    (∀ k, k ∈ pairs.map Prod.fst → k ∉ acc.map Prod.fst) →
    unpackMetadataGo (flattenPairs pairs).reverse acc = .ok (acc ++ pairs.reverse) := by
  induction pairs using List.reverseRecOn with
  | nil => intro acc _ _; simp [flattenPairs, unpackMetadataGo]
  | append_singleton ps p ih =>
    intro acc hnodup hdisj
    cases p with
    | mk k v =>
      rw [flattenPairs_append]
      simp only [List.reverse_append, List.reverse_cons, List.reverse_nil,
        List.nil_append, List.cons_append]
      show unpackMetadataGo (v :: k :: (flattenPairs ps).reverse) acc = _
      rw [unpackMetadataGo]
      have hk : k ∉ acc.map Prod.fst := hdisj k (by simp)
      rw [pyDictSet_fresh acc k v hk]
      have hmap : (ps ++ [(k, v)]).map Prod.fst = ps.map Prod.fst ++ [k] := by simp
      rw [hmap] at hnodup hdisj
      have hnd := List.Nodup.of_append_left hnodup
      have hkps : k ∉ ps.map Prod.fst := by
        intro hmem
        exact (List.disjoint_of_nodup_append hnodup) hmem (by simp)
      rw [ih (acc ++ [(k, v)]) hnd ?_]
      · simp
      · intro k' hk'
        simp only [List.map_append, List.map_cons, List.map_nil, List.mem_append,
          List.mem_singleton]
        push_neg
        refine ⟨hdisj k' (by simp [hk']), ?_⟩
        intro hkk'; exact hkps (hkk' ▸ hk')

/-- C2: in `Solr.extract`, a raw metadata blob that is a flat
alternating key/value list is unpacked by consuming two items at a
time from the end into a map (the right-hand `pop()` yields the value,
the subscript `pop()` the key that preceded it), so for a blob of
distinct keys `[k1, v1, ..., kn, vn]` the resulting insertion-ordered
map is `[(kn, vn), ..., (k1, v1)]`; in particular
`["a", "1", "b", "2"]` yields `{"b": "2", "a": "1"}`, each key mapping
to the value that followed it in the list. -/
theorem claim_C2_metadata_unpack :
    (∀ pairs : List (String × String), (pairs.map Prod.fst).Nodup →
      unpackMetadata (flattenPairs pairs) = .ok pairs.reverse)
    ∧ unpackMetadata ["a", "1", "b", "2"] = .ok [("b", "2"), ("a", "1")] := by
  constructor
  · intro pairs hnd
    match pairs with
    | [] => rfl
    | (k, v) :: rest =>
      have : flattenPairs ((k, v) :: rest) = k :: v :: flattenPairs rest := rfl
      rw [unpackMetadata, this]
      simp only [List.isEmpty_cons, if_neg Bool.false_ne_true]
      exact unpackMetadataGo_flatten ((k, v) :: rest) [] hnd (by simp)
  · rfl

/-- Closed instance of the C2 theorem at the spec's literal blob,
discharging the distinct-keys hypothesis. -/
theorem claim_C2_metadata_unpack_witness :
    unpackMetadata (flattenPairs [("a", "1"), ("b", "2")]) = .ok [("b", "2"), ("a", "1")] :=
  claim_C2_metadata_unpack.1 [("a", "1"), ("b", "2")] (by decide)

/-- C5: `Solr.delete` requires exactly one of `id`/`q`: with neither or
both it raises `ValueError` (before any update request is built or
submitted — the embedded `deleteMsg` covers everything `delete` does
before calling `_update`), and with exactly one it builds the
corresponding `<delete><id>..</id></delete>` or
`<delete><query>..</query></delete>` message. -/
theorem claim_C5_delete_validation :
    deleteMsg Option.none Option.none = .error .valueError
    ∧ (∀ i q, deleteMsg (some i) (some q) = .error .valueError)
    ∧ (∀ i, deleteMsg (some i) Option.none = .ok ("<delete><id>" ++ i ++ "</id></delete>"))
    ∧ (∀ q, deleteMsg Option.none (some q) =
        .ok ("<delete><query>" ++ q ++ "</query></delete>")) :=
  ⟨rfl, fun _ _ => rfl, fun _ => rfl, fun _ => rfl⟩

/-- C8: the codec round-trips booleans exactly:
`to_python (from_python true) = true` and likewise for `false`, for
every behaviour of the `ast.literal_eval` collaborator (which is never
reached on these inputs). -/
theorem claim_C8_bool_roundtrip :
    ∀ lev : String → Option PyValue,
      to_python lev (.str (from_python (.bool true))) = .ok (.bool true)
      ∧ to_python lev (.str (from_python (.bool false))) = .ok (.bool false) :=
  fun _ => ⟨rfl, rfl⟩

/-- C10: `to_python` (`from_wire`) on a sequence input is partial: the
empty list and the empty tuple raise `IndexError`, and on a non-empty
list or tuple the result depends only on the first element — elements
past the first never influence the result (a list and a tuple with the
same head even agree). -/
theorem claim_C10_from_wire_sequences :
    ∀ lev : String → Option PyValue,
      (to_python lev (.list []) = .error .indexError
        ∧ to_python lev (.tuple []) = .error .indexError)
      ∧ ∀ (x : PyValue) (xs ys : List PyValue),
          to_python lev (.list (x :: xs)) = to_python lev (.list (x :: ys))
          ∧ to_python lev (.tuple (x :: xs)) = to_python lev (.list (x :: ys)) :=
  fun _ => ⟨⟨rfl, rfl⟩, fun _ _ _ => ⟨rfl, rfl⟩⟩

/-- Python `str(bool(v)).lower()` as applied to the update flags. -/
def pyBoolLower (b : Bool) : String := if b then "true" else "false"

/-- The `query_vars` list built by `Solr._update` from the effective
flag values: `commit` when non-`None`, else `softCommit` when
non-`None` (the source's `if commit is not None: ... elif softCommit
is not None: ...`), then `waitFlush`, `overwrite` and `waitSearcher`,
each appended only when non-`None`, in the source's order. -/
def updateQueryVars (commit softCommit waitFlush waitSearcher overwrite : Option Bool) :
    List String :=
  let qv : List String := []
  let qv := match commit with
    | some c => qv ++ ["commit=" ++ pyBoolLower c]
    | Option.none =>
      match softCommit with
      | some sc => qv ++ ["softCommit=" ++ pyBoolLower sc]
      | Option.none => qv
  let qv := match waitFlush with
    | some w => qv ++ ["waitFlush=" ++ pyBoolLower w]
    | Option.none => qv
  let qv := match overwrite with
    | some o => qv ++ ["overwrite=" ++ pyBoolLower o]
    | Option.none => qv
  match waitSearcher with
  | some w => qv ++ ["waitSearcher=" ++ pyBoolLower w]
  | Option.none => qv

/-- The path `Solr._update` posts to: `update/` with the query vars
appended after `?`, joined by `&`, when any are present. -/
def updatePath (commit softCommit waitFlush waitSearcher overwrite : Option Bool) : String :=
  let qv := updateQueryVars commit softCommit waitFlush waitSearcher overwrite
  if qv.isEmpty then "update/" else "update/?" ++ "&".intercalate qv

/-- A call to `Solr._update` at the keyword level: `some v` means the
caller explicitly passed the flag (with value `v`, itself optional
since Python callers may pass `None` explicitly), `none` means the
parameter default applies. -/
structure UpdateArgs where
  commit : Option (Option Bool)
  softCommit : Option (Option Bool)
  waitFlush : Option (Option Bool)
  waitSearcher : Option (Option Bool)
  overwrite : Option (Option Bool)

/-- Apply `Solr._update`'s parameter defaults (`commit=True`,
`softCommit=False`, the rest `None`) to a call. -/
def applyUpdateDefaults (a : UpdateArgs) :
    Option Bool × Option Bool × Option Bool × Option Bool × Option Bool :=
  (a.commit.getD (some true), a.softCommit.getD (some false),
   a.waitFlush.getD Option.none, a.waitSearcher.getD Option.none,
   a.overwrite.getD Option.none)

/-- The query vars produced by a keyword-level call to `_update`. -/
def updateQueryVarsOfCall (a : UpdateArgs) : List String :=
  match applyUpdateDefaults a with
  | (c, sc, wf, ws, ow) => updateQueryVars c sc wf ws ow

/-- The five boolean update-submission flags. -/
inductive UpdateFlag where
  | commit | softCommit | waitFlush | waitSearcher | overwrite
  deriving DecidableEq

/-- Wire name of an update flag. -/
def flagName : UpdateFlag → String
  | .commit => "commit"
  | .softCommit => "softCommit"
  | .waitFlush => "waitFlush"
  | .waitSearcher => "waitSearcher"
  | .overwrite => "overwrite"

/-- The keyword argument of a call corresponding to a flag. -/
def argOf (a : UpdateArgs) : UpdateFlag → Option (Option Bool)
  | .commit => a.commit
  | .softCommit => a.softCommit
  | .waitFlush => a.waitFlush
  | .waitSearcher => a.waitSearcher
  | .overwrite => a.overwrite

/-- Whether a flag is rendered (with either polarity) in a query-var
list. -/
def flagRendered (qv : List String) (f : UpdateFlag) : Bool :=
  qv.contains (flagName f ++ "=true") || qv.contains (flagName f ++ "=false")

/-- C3 counterexample: in the call that sets no flag explicitly,
`commit=true` is nevertheless rendered into the update path (the
parameter defaults to `True`, and `_update` renders it whenever it is
non-`None`), so "rendered iff the caller explicitly set that flag"
fails at the `commit` flag of the all-defaults call. -/
theorem claim_C3_counterexample :
    ¬ (flagRendered
        (updateQueryVarsOfCall
          ⟨Option.none, Option.none, Option.none, Option.none, Option.none⟩)
        UpdateFlag.commit
      = (argOf ⟨Option.none, Option.none, Option.none, Option.none, Option.none⟩
          UpdateFlag.commit).isSome) := by
  decide

/-- C3 amended: `waitFlush`, `overwrite` and `waitSearcher` are
rendered into the query string as lower-case `true`/`false` iff their
effective value is non-`None` (so, iff the caller set them to a
boolean, their defaults being `None`); but `commit` is rendered
whenever its effective value is non-`None` — its default is `True`, so
it is rendered as `commit=true` even when the caller did not set it —
and `softCommit` is rendered only when `commit`'s effective value is
`None` and `softCommit`'s is non-`None`; in particular the
all-defaults call renders exactly `commit=true`. -/
theorem claim_C3_update_flags_amended :
    (∀ c sc wf ws ow : Option Bool, ∀ b : Bool,
      (("commit=" ++ pyBoolLower b) ∈ updateQueryVars c sc wf ws ow ↔ c = some b)
      ∧ (("softCommit=" ++ pyBoolLower b) ∈ updateQueryVars c sc wf ws ow ↔
          c = Option.none ∧ sc = some b)
      ∧ (("waitFlush=" ++ pyBoolLower b) ∈ updateQueryVars c sc wf ws ow ↔ wf = some b)
      ∧ (("overwrite=" ++ pyBoolLower b) ∈ updateQueryVars c sc wf ws ow ↔ ow = some b)
      ∧ (("waitSearcher=" ++ pyBoolLower b) ∈ updateQueryVars c sc wf ws ow ↔ ws = some b))
    ∧ updateQueryVarsOfCall ⟨Option.none, Option.none, Option.none, Option.none, Option.none⟩
        = ["commit=true"] := by
  constructor
  · decide
  · rfl

/-- Closed instance of the amended C3 theorem: in a call with
`waitFlush=False` and `commit=None`, `softCommit=True`, the rendered
vars contain `waitFlush=false` and `softCommit=true`. -/
theorem claim_C3_update_flags_amended_witness :
    ("waitFlush=" ++ pyBoolLower false) ∈
      updateQueryVars Option.none (some true) (some false) Option.none Option.none
    ∧ ("softCommit=" ++ pyBoolLower true) ∈
      updateQueryVars Option.none (some true) (some false) Option.none Option.none :=
  ⟨(claim_C3_update_flags_amended.1 Option.none (some true) (some false) Option.none
      Option.none false).2.2.1.mpr rfl,
   (claim_C3_update_flags_amended.1 Option.none (some true) (some false) Option.none
      Option.none true).2.1.mpr ⟨rfl, rfl⟩⟩

/-- Characters never percent-encoded by `urllib.parse.quote`
(letters, digits, `_`, `.`, `-`, `~`), as byte values. -/
def alwaysSafeByte (b : Nat) : Bool :=
  (0x41 ≤ b && b ≤ 0x5A) || (0x61 ≤ b && b ≤ 0x7A) || (0x30 ≤ b && b ≤ 0x39)
    || b = 0x5F || b = 0x2E || b = 0x2D || b = 0x7E

/-- Upper-case hexadecimal digit. -/
def hexDigit (n : Nat) : Char :=
  if n < 10 then Char.ofNat (48 + n) else Char.ofNat (55 + n)

/-- Embeds `urllib.parse.quote_plus` on one UTF-8 byte: safe bytes pass,
space becomes `+`, the rest become `%XX`. -/
def quotePlusByte (b : Nat) : List Char :=
  if alwaysSafeByte b then [Char.ofNat b]
  else if b = 0x20 then ['+']
  else ['%', hexDigit (b / 16), hexDigit (b % 16)]

/-- Embeds `urllib.parse.quote_plus` with empty `safe`, as used by
`urlencode`: encode to UTF-8, then quote each byte. -/
def quote_plus (s : String) : String :=
  String.mk ((s.toList.flatMap utf8EncodeChar).flatMap quotePlusByte)

/-- A query-parameter value as handled by `urlencode(.., doseq=True)`:
a plain string, or a sequence of strings expanded into one `k=v` pair
per element. -/
inductive ParamVal where
  | s (v : String)
  | seq (vs : List String)

/-- The `k=v` pairs contributed by one parameter under
`urlencode(.., doseq=True)`. -/
def urlencodePair (k : String) (v : ParamVal) : List String :=
  match v with
  | .s v => [quote_plus k ++ "=" ++ quote_plus v]
  | .seq vs => vs.map (fun x => quote_plus k ++ "=" ++ quote_plus x)

/-- Embeds `urllib.parse.urlencode(params, doseq=True)` over an
insertion-ordered parameter dict. -/
def urlencode (ps : List (String × ParamVal)) : String :=
  "&".intercalate (ps.flatMap (fun p => urlencodePair p.1 p.2))

/-- Python `dict` assignment for parameter dicts (same semantics as
`pyDictSet`, at the `ParamVal` value type). -/
def pyDictSetP (m : List (String × ParamVal)) (k : String) (v : ParamVal) :
    List (String × ParamVal) :=
  match m with
  | [] => [(k, v)]
  | (k', v') :: rest => if k' = k then (k', v) :: rest else (k', v') :: pyDictSetP rest k v

/-- An HTTP request as assembled by the client before it reaches the
transport (`_send_request` arguments). -/
structure Request where
  method : String
  path : String
  body : Option String
  headers : List (String × String)
  deriving DecidableEq

/-- Embeds `Solr._select`: set `wt=json`, encode the parameters, and issue a
GET with the params in the URL when the encoded string is shorter than
1024 characters, otherwise a POST whose body is the encoded params
under the form-urlencoded content type. -/
def solrSelect (params : List (String × ParamVal)) (searchHandler : String) : Request :=
  let params := pyDictSetP params "wt" (.s "json")
  let paramsEncoded := urlencode params
  if paramsEncoded.length < 1024 then
    { method := "get", path := searchHandler ++ "/?" ++ paramsEncoded,
      body := Option.none, headers := [] }
  else
    { method := "post", path := searchHandler ++ "/", body := some paramsEncoded,
      headers := [("Content-type", "application/x-www-form-urlencoded; charset=utf-8")] }

/-- C4: for every parameter set submitted as a query, `_select`
encodes the parameters (after forcing `wt=json`) into a query string;
when the encoded string's length is strictly below 1024 characters it
issues a GET carrying the encoded params in the URL, and otherwise a
POST whose body is the encoded params under the form-urlencoded
content type. -/
theorem claim_C4_get_post_dispatch :
    ∀ (params : List (String × ParamVal)) (h : String),
      ((urlencode (pyDictSetP params "wt" (.s "json"))).length < 1024 →
        solrSelect params h =
          { method := "get",
            path := h ++ "/?" ++ urlencode (pyDictSetP params "wt" (.s "json")),
            body := Option.none, headers := [] })
      ∧ (1024 ≤ (urlencode (pyDictSetP params "wt" (.s "json"))).length →
        solrSelect params h =
          { method := "post", path := h ++ "/",
            body := some (urlencode (pyDictSetP params "wt" (.s "json"))),
            headers := [("Content-type",
              "application/x-www-form-urlencoded; charset=utf-8")] }) := by
  intro params h
  constructor
  · intro hlt
    simp only [solrSelect, if_pos hlt]
  · intro hge
    simp only [solrSelect, if_neg (Nat.not_lt.mpr hge)]

set_option maxRecDepth 40000 in
/-- Closed instances of the C4 theorem: a short parameter set goes out
as a GET, and one whose encoding reaches 1024 characters goes out as a
POST with the form content type. -/
theorem claim_C4_get_post_dispatch_witness :
    (solrSelect [("q", .s "x")] "select").method = "get"
    ∧ (solrSelect [("q", .s (String.mk (List.replicate 1100 'a')))] "select").method
        = "post" := by
  constructor
  · rw [(claim_C4_get_post_dispatch [("q", .s "x")] "select").1 (by decide)]
  · rw [(claim_C4_get_post_dispatch
      [("q", .s (String.mk (List.replicate 1100 'a')))] "select").2 (by decide)]

/-- One `<field>` element as emitted by `Solr._build_doc`: name,
optional `update` modifier, optional per-field `boost`, and the
wire-encoded text. -/
structure FieldElem where
  name : String
  update : Option String
  fboost : Option String
  text : String
  deriving DecidableEq

/-- The `<doc>` element built by `Solr._build_doc`: an optional
document-level `boost` attribute and the field elements in emission
order. -/
structure DocElem where
  boostAttr : Option String
  fields : List FieldElem
  deriving DecidableEq

/-- The source's `values` normalization: lists and tuples are used as
is, any other value becomes a one-element sequence. -/
def seqValues : PyValue → List PyValue
  | .list xs => xs
  | .tuple xs => xs
  | v => [v]

/-- Build one field element for key `k` and element `bit`:
`update` comes from the `fieldUpdates` dict when it is truthy and has
the key, `boost` likewise from the per-field boost dict (passed
through `force_unicode`); the text is `from_python(bit)`.  (A lookup
in an empty dict is `none`, so Python's truthiness guard on the two
dicts collapses into the lookup.) -/
def mkFieldElem (boost : Option (List (String × PyValue)))
    (fieldUpdates : Option (List (String × String))) (k : String) (bit : PyValue) :
    FieldElem :=
  { name := k,
    update := match fieldUpdates with
      | some fu => fu.lookup k
      | Option.none => Option.none,
    fboost := match boost with
      | some bm => (bm.lookup k).map force_unicode
      | Option.none => Option.none,
    text := from_python bit }

/-- The field elements contributed by one `(key, value)` item of the
document: none for the reserved `boost` key, otherwise one per
non-null element of the value sequence, in order. -/
def emitFields (boost : Option (List (String × PyValue)))
    (fieldUpdates : Option (List (String × String))) (kv : String × PyValue) :
    List FieldElem :=
  if kv.1 = "boost" then []
  else ((seqValues kv.2).filter (fun bit => !is_null_value bit)).map
    (mkFieldElem boost fieldUpdates kv.1)

/-- One iteration of `Solr._build_doc`'s loop over the document
items: the reserved `boost` key sets the doc-level boost attribute
(through `force_unicode`, regardless of nullness) and emits no field;
any other key appends its non-null elements as fields. -/
def buildDocStep (boost : Option (List (String × PyValue)))
    (fieldUpdates : Option (List (String × String))) (acc : DocElem)
    (kv : String × PyValue) : DocElem :=
  if kv.1 = "boost" then { acc with boostAttr := some (force_unicode kv.2) }
  else { acc with fields := acc.fields ++ emitFields boost fieldUpdates kv }

/-- Embeds `Solr._build_doc` over an insertion-ordered document dict. -/
def build_doc (doc : List (String × PyValue))
    (boost : Option (List (String × PyValue)))
    (fieldUpdates : Option (List (String × String))) : DocElem :=
  doc.foldl (buildDocStep boost fieldUpdates) { boostAttr := Option.none, fields := [] }

theorem buildDocStep_fields (b : Option (List (String × PyValue)))
    (fu : Option (List (String × String))) (acc : DocElem) (kv : String × PyValue) :
    (buildDocStep b fu acc kv).fields = acc.fields ++ emitFields b fu kv := by
  by_cases h : kv.1 = "boost"
  · simp [buildDocStep, emitFields, h]
  · simp [buildDocStep, h]

theorem buildDocStep_boost (b : Option (List (String × PyValue)))
    (fu : Option (List (String × String))) (acc : DocElem) (kv : String × PyValue) :
    (buildDocStep b fu acc kv).boostAttr =
      if kv.1 = "boost" then some (force_unicode kv.2) else acc.boostAttr := by
  by_cases h : kv.1 = "boost" <;> simp [buildDocStep, h]

theorem foldl_buildDocStep_boost (b : Option (List (String × PyValue)))
    (fu : Option (List (String × String))) (l : List (String × PyValue)) :
    ∀ acc : DocElem, "boost" ∉ l.map Prod.fst →
      (l.foldl (buildDocStep b fu) acc).boostAttr = acc.boostAttr := by
  induction l with
  | nil => intro acc _; rfl
  | cons kv rest ih =>
    intro acc h
    simp only [List.map_cons, List.mem_cons] at h
    push_neg at h
    rw [List.foldl_cons, ih _ h.2, buildDocStep_boost, if_neg (fun hh => h.1 hh.symm)]

/-- C6: in `Solr._build_doc`, (i) each document item appends, in
document order, exactly its emitted fields: none for the reserved
`boost` key and otherwise one field per non-null element of its value
sequence, in the sequence's order; (ii) hence a non-reserved key with
a list value emits one entry per non-null element in order, (iii) a
non-reserved scalar value emits one entry unless it is null (`None` or
the empty string), in which case it is skipped entirely; and (iv) the
document-level boost taken from the reserved `boost` key is always
emitted when that key is present, regardless of the nullness of its
value. -/
theorem claim_C6_doc_builder :
    (∀ (doc : List (String × PyValue)) (k : String) (v : PyValue)
        (b : Option (List (String × PyValue))) (fu : Option (List (String × String))),
      (build_doc (doc ++ [(k, v)]) b fu).fields
        = (build_doc doc b fu).fields ++ emitFields b fu (k, v))
    ∧ (∀ (k : String) (xs : List PyValue) b fu, k ≠ "boost" →
        (build_doc [(k, .list xs)] b fu).fields
          = (xs.filter (fun bit => !is_null_value bit)).map (mkFieldElem b fu k))
    ∧ (∀ (k : String) (v : PyValue) b fu, k ≠ "boost" → seqValues v = [v] →
        (build_doc [(k, v)] b fu).fields
          = if is_null_value v then [] else [mkFieldElem b fu k v])
    ∧ (∀ (d1 d2 : List (String × PyValue)) (v : PyValue) b fu,
        "boost" ∉ d2.map Prod.fst →
        (build_doc (d1 ++ ("boost", v) :: d2) b fu).boostAttr
          = some (force_unicode v)) := by
  refine ⟨?_, ?_, ?_, ?_⟩
  · intro doc k v b fu
    rw [build_doc, List.foldl_append, List.foldl_cons, List.foldl_nil,
      buildDocStep_fields, build_doc]
  · intro k xs b fu hk
    simp [build_doc, buildDocStep_fields, emitFields, hk, seqValues]
  · intro k v b fu hk hs
    rw [build_doc, List.foldl_cons, List.foldl_nil, buildDocStep_fields]
    simp only [List.nil_append, emitFields, if_neg hk, hs]
    by_cases hn : is_null_value v <;> simp [List.filter, hn]
  · intro d1 d2 v b fu h2
    rw [build_doc, List.foldl_append, List.foldl_cons,
      foldl_buildDocStep_boost b fu d2 _ h2, buildDocStep_boost]
    simp

/-- Closed instances of the C6 theorem: a list value with null
elements emits exactly its non-null elements in order; a null scalar
emits nothing; and a null document boost is still emitted (as the
string `None`). -/
theorem claim_C6_doc_builder_witness :
    (build_doc [("title", .list [.str "a", PyValue.none, .str "", .str "b"])]
        Option.none Option.none).fields
      = [mkFieldElem Option.none Option.none "title" (.str "a"),
         mkFieldElem Option.none Option.none "title" (.str "b")]
    ∧ (build_doc [("title", .str "")] Option.none Option.none).fields = []
    ∧ (build_doc [("boost", PyValue.none)] Option.none Option.none).boostAttr
        = some "None" :=
  ⟨claim_C6_doc_builder.2.1 "title" [.str "a", PyValue.none, .str "", .str "b"]
      Option.none Option.none (by decide),
   claim_C6_doc_builder.2.2.1 "title" (.str "") Option.none Option.none
      (by decide) rfl,
   by
    have h := claim_C6_doc_builder.2.2.2 [] [] PyValue.none Option.none Option.none
      (by simp)
    simpa [force_unicode, pyStr] using h⟩

/-- An `xml.etree.ElementTree` element: tag, attributes, the `.text`
field (text before the first child; `None` when empty) and child
elements in document order. -/
structure XmlElem where
  tag : String
  attrs : List (String × String)
  text : Option String
  children : List XmlElem

/-- Does an element match one path step `tag` / `tag[@attr="value"]`
of an ElementTree `find` expression? -/
def etMatches (tag : String) (attr : Option (String × String)) (e : XmlElem) : Bool :=
  e.tag == tag &&
    match attr with
    | some (a, v) => e.attrs.lookup a == some v
    | Option.none => true

/-- Embeds `ElementTree.Element.find` for the two-step child paths the source
uses (`lst[@name="error"]/str[@name="msg"]`, `body/pre`,
`head/title`): the first element, in document order, reachable by one
matching child step followed by another. -/
def etFind2 (root : XmlElem) (t1 : String) (a1 : Option (String × String))
    (t2 : String) (a2 : Option (String × String)) : Option XmlElem :=
  (root.children.filter (etMatches t1 a1)).findSome?
    (fun c => (c.children.filter (etMatches t2 a2)).head?)

/-- Python `str.strip()` (the source only strips ASCII whitespace in
the scenarios the claims touch): drop whitespace from both ends. -/
def pyStrip (s : String) : String :=
  String.mk (((s.toList.dropWhile Char.isWhitespace).reverse.dropWhile
    Char.isWhitespace).reverse)

/-- Python `needle in haystack` on strings. -/
def strContains (hay needle : String) : Bool :=
  decide (needle.toList <:+: hay.toList)

/-- Python `str.lower()` (ASCII case folding suffices for the header
tokens the source compares). -/
def strLower (s : String) : String := String.mk (s.toList.map Char.toLower)

/-- Python `str.startswith(prefix)`. -/
def strStartsWith (s pre : String) : Bool := pre.toList.isPrefixOf s.toList

/-- Fuelled replacement loop for `str.replace`: replace each
non-overlapping occurrence of `pat`, left to right. -/
def strReplaceGo (pat repl : List Char) : Nat → List Char → List Char
  | 0, cs => cs
  | _ + 1, [] => []
  | fuel + 1, c :: rest =>
    if pat.isPrefixOf (c :: rest) then
      repl ++ strReplaceGo pat repl fuel ((c :: rest).drop pat.length)
    else
      c :: strReplaceGo pat repl fuel rest

/-- Python `str.replace(pat, repl)` (for the nonempty patterns the
source uses). -/
def strReplace (s pat repl : String) : String :=
  String.mk (strReplaceGo pat.toList repl.toList s.length s.toList)

/-- The external collaborators of the error extractor, taken as
parameters of the embedding: the strict XML parser
(`ElementTree.fromstring`, whose only failure is a `ParseError`), the
tree serializer (`ElementTree.tostring`, with its byte result already
decoded, as `force_unicode` later does), the Tomcat `<h1>` regex
search (`re.search(r'<(h1)[^>]*>\s*(.+?)\s*</\1>', .., re.IGNORECASE)`,
returning group 2), and the `html.entities.name2codepoint` table. -/
structure PyLib where
  fromstring : String → Except Unit XmlElem
  tostring : XmlElem → String
  h1search : String → Option String
  entities : List (String × Nat)

/-- Server-flavor sniffing at the top of `scrape_response`: substring
match of the lower-cased `server` header against `jetty` then
`coyote`, the latter winning when both occur. -/
def serverTypeOf (headers : List (String × String)) : Option String :=
  let server_string := (headers.lookup "server").getD ""
  let st := if server_string != "" && strContains (strLower server_string) "jetty"
    then some "jetty" else Option.none
  if server_string != "" && strContains (strLower server_string) "coyote"
    then some "tomcat" else st

/-- A non-2xx response body: raw bytes or already-decoded text. -/
inductive Body where
  | bytes (bs : List Nat)
  | text (s : String)

/-- The `if hasattr(response, 'decode'): response = response.decode()`
step of `scrape_response`: bytes are decoded strictly, raising
`UnicodeDecodeError` on invalid UTF-8. -/
def pyDecodeBody : Body → Except PyErr String
  | .bytes bs =>
    match utf8Decode bs with
    | some s => .ok s
    | Option.none => .error .unicodeDecodeError
  | .text s => .ok s

/-- Python truthiness of the `reason` variable (`None` or a string). -/
def reasonTruthy : Option String → Bool
  | some s => s != ""
  | Option.none => false

/-- The strict-XML branch of `scrape_response`: when the body starts
with an XML declaration, parse it strictly (a `ParseError` is caught
and ignored) and look up the `msg` and `trace` nodes under
`lst[@name="error"]`; a found node's `.text` is stripped (raising
`AttributeError` when the node is empty, i.e. `.text is None`); when
both `reason` and `full_html` end up truthy the function returns them
immediately (`Sum.inl`), otherwise scraping continues (`Sum.inr`)
carrying the current `reason`/`full_html`. -/
def scrapeStrict (lib : PyLib) (response : String) :
    Except PyErr (Sum (Option String × String) (Option String × String)) :=
  if strStartsWith response "<?xml" then
    match lib.fromstring response with
    | .error _ => .ok (.inr (Option.none, ""))
    | .ok soup => do
      let rn := etFind2 soup "lst" (some ("name", "error")) "str" (some ("name", "msg"))
      let tn := etFind2 soup "lst" (some ("name", "error")) "str" (some ("name", "trace"))
      let rfh ←
        match rn with
        | some n =>
          match n.text with
          | some t => pure (some (pyStrip t), pyStrip t)
          | Option.none => (.error .attributeError :
              Except PyErr (Option String × String))
        | Option.none => pure ((Option.none : Option String), "")
      let rfh ←
        match tn with
        | some n =>
          match n.text with
          | some t =>
            pure ((if rfh.1.isNone then some (pyStrip t) else rfh.1), pyStrip t)
          | Option.none => (.error .attributeError :
              Except PyErr (Option String × String))
        | Option.none => pure rfh
      if reasonTruthy rfh.1 && rfh.2 != "" then
        pure (.inl rfh)
      else
        pure (.inr rfh)
  else .ok (.inr (Option.none, ""))

/-- The flavor-based scraping of `scrape_response`: Tomcat extracts
the first `<h1>` text as reason (whole body as `full_html` when there
is none); every other flavor re-parses the body leniently, reads
`body/pre` (Jetty) or `head/title` (generic), serializes the tree into
`full_html` when no reason was found, and on a parse failure (the
caught `SyntaxError`) uses the raw body as `full_html`. -/
def scrapeFlavor (lib : PyLib) (server_type : Option String) (response : String)
    (reason : Option String) (full_html : String) : Option String × String :=
  if server_type == some "tomcat" then
    match lib.h1search response with
    | some g => (some g, full_html)
    | Option.none => (reason, response)
  else
    match lib.fromstring response with
    | .ok dom_tree =>
      let rn := if server_type == some "jetty"
        then etFind2 dom_tree "body" Option.none "pre" Option.none
        else etFind2 dom_tree "head" Option.none "title" Option.none
      let reason := match rn with | some n => n.text | Option.none => reason
      let full_html := if reason.isNone then lib.tostring dom_tree else full_html
      (reason, full_html)
    | .error _ => (reason, response)

/-- The final normalization of `full_html` in `scrape_response`:
`force_unicode` (identity on text), strip `\n`, `\r`, `<br/>`,
`<br />`, then trim. -/
def normalizeDetail (s : String) : String :=
  pyStrip (strReplace (strReplace (strReplace (strReplace s "\n" "") "\r" "")
    "<br/>" "") "<br />" "")

/-- Embeds `error_extractor.scrape_response`. -/
def scrape_response (lib : PyLib) (headers : List (String × String)) (response : Body) :
    Except PyErr (Option String × String) := do
  let server_type := serverTypeOf headers
  let response ← pyDecodeBody response
  match ← scrapeStrict lib response with
  | .inl out => return out
  | .inr rfh =>
    let rfh := scrapeFlavor lib server_type response rfh.1 rfh.2
    return (rfh.1, normalizeDetail rfh.2)

/-- Embeds `error_extractor.make_error_msg`. -/
def make_error_msg (reason : Option String) (full_response : String) : String :=
  match reason with
  | some r => "[Reason: " ++ r ++ "]"
  | Option.none => "[Reason: None]" ++ "\n" ++ full_response

/-- Python regex `\w` (modelled as ASCII alphanumerics and
underscore). -/
def isWordChar (c : Char) : Bool := c.isAlphanum || c == '_'

/-- Value of a hexadecimal digit. -/
def hexVal (c : Char) : Option Nat :=
  if c.isDigit then some (c.toNat - 48)
  else if 'a' ≤ c && c ≤ 'f' then some (c.toNat - 87)
  else if 'A' ≤ c && c ≤ 'F' then some (c.toNat - 70)
  else Option.none

/-- Python `int(s, 16)` on a nonempty digit run (`none` models the caught
`ValueError`). -/
def parseHexNat (cs : List Char) : Option Nat :=
  match cs with
  | [] => Option.none
  | _ =>
    cs.foldl (fun acc c =>
      match acc, hexVal c with
      | some a, some d => some (a * 16 + d)
      | _, _ => Option.none) (some 0)

/-- Python `int(s)` on a nonempty digit run (`none` models the caught
`ValueError`). -/
def parseDecNat (cs : List Char) : Option Nat :=
  match cs with
  | [] => Option.none
  | _ =>
    cs.foldl (fun acc c =>
      if c.isDigit then acc.map (fun a => a * 10 + (c.toNat - 48)) else Option.none)
      (some 0)

/-- Python `chr`: `ValueError` (here `none`) above `0x10FFFF`.
Python's `chr` also accepts lone surrogates, which Lean's `Char`
cannot represent; those references are treated as unreplaced (no
claim exercises them). -/
def chrOpt (n : Nat) : Option Char :=
  if n < 0x110000 && !(0xD800 ≤ n && n ≤ 0xDFFF) then some (Char.ofNat n) else Option.none

/-- The `fixup` replacement of `utils.unescape_html` applied to one
match `&<inner>;` of `&#?\w+;`: `&#x..;` parses as hex, `&#..;` as
decimal (an unparsable number or an out-of-range `chr` leaves the
match unchanged), and a bare name is looked up in the entity table
(an unknown name passes through unchanged). -/
def entityFixup (ents : List (String × Nat)) (inner : List Char) : List Char :=
  let unchanged := '&' :: inner ++ [';']
  match inner with
  | '#' :: rest =>
    let parsed := match rest with
      | 'x' :: hexDigits => parseHexNat hexDigits
      | _ => parseDecNat rest
    match parsed >>= chrOpt with
    | some c => [c]
    | Option.none => unchanged
  | _ =>
    match ents.lookup (String.mk inner) with
    | some cp =>
      match chrOpt cp with
      | some c => [c]
      | Option.none => unchanged
    | Option.none => unchanged

/-- Fuelled scan of `re.sub("&#?\w+;", fixup, text)`: at each `&`, try
to match an optional `#` followed by a maximal nonempty `\w` run and a
`;`; replace a match through `entityFixup`, otherwise move on one
character. -/
def unescapeGo (ents : List (String × Nat)) (fuel : Nat) (cs : List Char) : List Char :=
  match fuel with
  | 0 => cs
  | fuel + 1 =>
    match cs with
    | [] => []
    | '&' :: rest =>
      let afterHash := match rest with
        | '#' :: r2 => some r2
        | _ => Option.none
      let core := afterHash.getD rest
      let ws := core.takeWhile isWordChar
      if !ws.isEmpty && (core.drop ws.length).head? == some ';' then
        let inner := match afterHash with
          | some _ => '#' :: ws
          | Option.none => ws
        entityFixup ents inner ++ unescapeGo ents fuel (core.drop (ws.length + 1))
      else
        '&' :: unescapeGo ents fuel rest
    | c :: rest => c :: unescapeGo ents fuel rest

/-- Embeds `utils.unescape_html`, parameterized by the
`html.entities.name2codepoint` table. -/
def unescape_html (ents : List (String × Nat)) (text : String) : String :=
  String.mk (unescapeGo ents text.length text.toList)

/-- A non-2xx HTTP response as consumed by `extract_error`: headers,
raw body bytes (`resp.content` / `resp.read()`), and the outcome of
`resp.json()` (`.error .valueError` when the body is not JSON). -/
structure Resp where
  headers : List (String × String)
  body : List Nat
  jsonResult : Except PyErr PyValue

/-- Python subscription `v[k]` with a string key: a dict lookup
(`KeyError` when missing), `TypeError` on every non-dict value. -/
def pySubscript (v : PyValue) (k : String) : Except PyErr PyValue :=
  match v with
  | .dict kvs =>
    match kvs.lookup k with
    | some x => .ok x
    | Option.none => .error .keyError
  | _ => .error .typeError

/-- Embeds `error_extractor.extract_error`: try `resp.json()['error']['msg']`
as the reason; a `KeyError` falls back to the raw body as detail, a
`ValueError` (non-JSON body) falls through to `scrape_response` plus
`unescape_html`; any other exception (e.g. `TypeError` from
subscripting a non-dict JSON value, or `UnicodeDecodeError` inside
the scrape) propagates. -/
def extract_error (lib : PyLib) (resp : Resp) :
    Except PyErr (Option PyValue × Option PyValue) :=
  match (do
      let j ← resp.jsonResult
      let e ← pySubscript j "error"
      pySubscript e "msg" : Except PyErr PyValue) with
  | .ok msg => .ok (some msg, Option.none)
  | .error .keyError => .ok (Option.none, some (.bytes resp.body))
  | .error .valueError => do
    let rfh ← scrape_response lib resp.headers (.bytes resp.body)
    .ok (rfh.1.map PyValue.str, some (.str (unescape_html lib.entities rfh.2)))
  | .error e => .error e

/-- C1 (failing input): the error extractor is *not* total on
malformed input — for the body `b'\xff'` (a single byte that is not
valid UTF-8, and not JSON, so `resp.json()` raises the caught
`ValueError`), `scrape_response` executes `response.decode()` with
strict error handling and a `UnicodeDecodeError` propagates out of
`extract_error` instead of the claimed fail-soft
`reason=None, detail=<raw body>` — for every choice of headers and of
the XML/regex collaborators, since the decode happens before any
scraping. -/
theorem claim_C1_extractor_raises :
    (∀ (lib : PyLib) (headers : List (String × String)),
      scrape_response lib headers (.bytes [0xFF]) = .error .unicodeDecodeError)
    ∧ (∀ lib : PyLib,
      extract_error lib { headers := [], body := [0xFF], jsonResult := .error .valueError }
        = .error .unicodeDecodeError) :=
  ⟨fun _ _ => rfl, fun _ => rfl⟩

/-- The `msg` node of the C7 counterexample tree (`.text` = `boom`). -/
def cexMsg : XmlElem :=
  { tag := "str", attrs := [("name", "msg")], text := some "boom", children := [] }

/-- The `trace` node of the C7 counterexample tree: its text is the
two-space string, whose strip is empty. -/
def cexTrace : XmlElem :=
  { tag := "str", attrs := [("name", "trace")], text := some "  ", children := [] }

/-- The `lst[@name="error"]` node of the C7 counterexample tree. -/
def cexLst : XmlElem :=
  { tag := "lst", attrs := [("name", "error")], text := Option.none,
    children := [cexMsg, cexTrace] }

/-- Root of the C7 counterexample tree, as `ElementTree.fromstring`
would parse `cexBody`. -/
def cexTree : XmlElem :=
  { tag := "response", attrs := [], text := Option.none, children := [cexLst] }

/-- The C7 counterexample body: starts with an XML declaration and
contains both the `msg` and `trace` nodes at the fixed paths, the
trace text being whitespace-only. -/
def cexBody : String :=
  "<?xml version=\"1.0\"?><response><lst name=\"error\"><str name=\"msg\">boom</str><str name=\"trace\">  </str></lst></response>"

/-- Concrete collaborator behaviour on the C7 counterexample: the
strict parser yields `cexTree` exactly on `cexBody` (and a
`ParseError` elsewhere), and the Tomcat `<h1>` regex finds nothing in
`cexBody` (which contains no `h1` tag). -/
def cexLib : PyLib :=
  { fromstring := fun s => if s = cexBody then .ok cexTree else .error (),
    tostring := fun _ => "",
    h1search := fun _ => Option.none,
    entities := [] }

set_option maxRecDepth 400000 in
/-- C7 counterexample: on a body that starts with an XML declaration
and whose strict parse finds both the `msg` node (text `boom`) and the
`trace` node (text `"  "`, two spaces) at the fixed paths, the
extractor does NOT return immediately with `detail` = the trace text:
because the stripped trace text is empty, the truthiness guard
`if reason and full_html` fails, flavor-based scraping proceeds
(Tomcat here, via the `server` header), and the final detail is the
whole body — not `"  "` and not the stripped `""`. -/
theorem claim_C7_counterexample :
    scrape_response cexLib [("server", "Apache-Coyote/1.1")] (.text cexBody)
      = .ok (some "boom", cexBody)
    ∧ strStartsWith cexBody "<?xml" = true
    ∧ cexLib.fromstring cexBody = .ok cexTree
    ∧ etFind2 cexTree "lst" (some ("name", "error")) "str" (some ("name", "msg"))
        = some cexMsg
    ∧ etFind2 cexTree "lst" (some ("name", "error")) "str" (some ("name", "trace"))
        = some cexTrace
    ∧ cexMsg.text = some "boom" ∧ cexTrace.text = some "  "
    ∧ cexBody ≠ "  " ∧ cexBody ≠ "" :=
  ⟨rfl, rfl, rfl, rfl, rfl, rfl, rfl, by decide, by decide⟩

/-- C7 amended: when the body starts with an XML declaration, the
strict parse succeeds and finds both the error-message node and the
stack-trace node at the fixed structural paths, both nodes carry text,
and both trimmed texts are nonempty, the extractor returns immediately
with `reason` = the message node's trimmed text and `detail` = the
trace node's trimmed text — independently of the headers, of the
server flavor, and of the remaining collaborators, i.e. with no
further flavor-based scraping (and no final detail normalization). -/
theorem claim_C7_strict_xml_amended :
    ∀ (lib : PyLib) (headers : List (String × String)) (s : String)
      (tree mn tn : XmlElem) (mt tt : String),
      strStartsWith s "<?xml" = true →
      lib.fromstring s = .ok tree →
      etFind2 tree "lst" (some ("name", "error")) "str" (some ("name", "msg")) = some mn →
      etFind2 tree "lst" (some ("name", "error")) "str" (some ("name", "trace")) = some tn →
      mn.text = some mt →
      tn.text = some tt →
      pyStrip mt ≠ "" →
      pyStrip tt ≠ "" →
      scrape_response lib headers (.text s) = .ok (some (pyStrip mt), pyStrip tt) := by
  intro lib headers s tree mn tn mt tt hstart hparse hmn htn hmt htt hmt' htt'
  have hstrict : scrapeStrict lib s = .ok (.inl (some (pyStrip mt), pyStrip tt)) := by
    simp only [scrapeStrict, hstart, if_true, hparse, hmn, htn, hmt, htt]
    simp [Except.instMonad, Except.bind, reasonTruthy, hmt', htt', pure, Except.pure]
  simp [scrape_response, pyDecodeBody, hstrict, Except.instMonad, Except.bind, pure,
    Except.pure]

/-- The `msg` node of the C7 witness tree (text `" E "`, trimming to
`E`). -/
def wMsg : XmlElem :=
  { tag := "str", attrs := [("name", "msg")], text := some " E ", children := [] }

/-- The `trace` node of the C7 witness tree (text `tb`). -/
def wTrace : XmlElem :=
  { tag := "str", attrs := [("name", "trace")], text := some "tb", children := [] }

/-- Root of the C7 witness tree. -/
def wTree : XmlElem :=
  { tag := "response", attrs := [], text := Option.none,
    children := [{ tag := "lst", attrs := [("name", "error")], text := Option.none,
                   children := [wMsg, wTrace] }] }

/-- The C7 witness body. -/
def wBody : String :=
  "<?xml version=\"1.0\"?><response><lst name=\"error\"><str name=\"msg\"> E </str><str name=\"trace\">tb</str></lst></response>"

/-- Concrete collaborators for the C7 witness. -/
def wLib : PyLib :=
  { fromstring := fun s => if s = wBody then .ok wTree else .error (),
    tostring := fun _ => "",
    h1search := fun _ => Option.none,
    entities := [] }

set_option maxRecDepth 400000 in
/-- Closed instance of the amended C7 theorem: both nodes present with
nonempty trimmed text short-circuit the extractor with the trimmed
texts. -/
theorem claim_C7_strict_xml_amended_witness :
    scrape_response wLib [] (.text wBody) = .ok (some "E", "tb") :=
  claim_C7_strict_xml_amended wLib [] wBody wTree wMsg wTrace " E " "tb"
    rfl rfl rfl rfl rfl rfl (by decide) (by decide)

/-- Python `dict.get(key, default)` on a decoded JSON object. -/
def dictGetD (d : List (String × PyValue)) (key : String) (default : PyValue) : PyValue :=
  (d.lookup key).getD default

/-- Python `.get(key, default)` on an arbitrary Python value: works on dicts,
raises `AttributeError` on anything else (as `response_part.get(..)`
does when the `response` section is a truthy non-dict). -/
def pyGet (v : PyValue) (key : String) (default : PyValue) : Except PyErr PyValue :=
  match v with
  | .dict kvs => .ok ((kvs.lookup key).getD default)
  | _ => .error .attributeError

/-- The attributes of a `result_cls.Results` instance. -/
structure PyResults where
  docs : PyValue
  hits : PyValue
  debug : PyValue
  highlighting : PyValue
  facets : PyValue
  spellcheck : PyValue
  stats : PyValue
  qtime : PyValue
  grouped : PyValue
  nextCursorMark : PyValue

/-- Embeds `Results.__init__` over a decoded JSON object: a falsy (absent,
`None`, or empty) top-level `response` section is replaced by an empty
dict, `docs` defaults to the empty tuple and `numFound` to `0`, and
each pass-through attribute is independently defaulted from its own
top-level key; `qtime` reads `QTime` inside `responseHeader`. -/
def mkResults (decoded : List (String × PyValue)) : Except PyErr PyResults := do
  let rp := dictGetD decoded "response" PyValue.none
  let response_part := if pyTruthy rp then rp else .dict []
  let docs ← pyGet response_part "docs" (.tuple [])
  let hits ← pyGet response_part "numFound" (.int 0)
  let debug := dictGetD decoded "debug" (.dict [])
  let highlighting := dictGetD decoded "highlighting" (.dict [])
  let facets := dictGetD decoded "facet_counts" (.dict [])
  let spellcheck := dictGetD decoded "spellcheck" (.dict [])
  let stats := dictGetD decoded "stats" (.dict [])
  let qtime ← pyGet (dictGetD decoded "responseHeader" (.dict [])) "QTime" PyValue.none
  let grouped := dictGetD decoded "grouped" (.dict [])
  let nextCursorMark := dictGetD decoded "nextCursorMark" PyValue.none
  .ok { docs := docs, hits := hits, debug := debug, highlighting := highlighting,
        facets := facets, spellcheck := spellcheck, stats := stats, qtime := qtime,
        grouped := grouped, nextCursorMark := nextCursorMark }

/-- Python `len(value)`. -/
def pyLen : PyValue → Except PyErr Nat
  | .str s => .ok s.length
  | .bytes bs => .ok bs.length
  | .list xs => .ok xs.length
  | .tuple xs => .ok xs.length
  | .dict kvs => .ok kvs.length
  | _ => .error .typeError

/-- Embeds `Results.__len__`: the length of the returned-document sequence. -/
def resultsLen (r : PyResults) : Except PyErr Nat := pyLen r.docs

/-- C9: for a decoded response whose top-level `response` section is
absent or `null`, the wrapper exposes the empty document tuple and a
hit count of `0`; each pass-through map is defaulted independently
from its own top-level key; and the wrapper's `len` is the number of
returned documents (the length of the document sequence) — which, as
the closing conjunct exhibits, is distinct from the hit count (one
returned document against `numFound = 10`). -/
theorem claim_C9_results_wrapper :
    (∀ (d : List (String × PyValue)) (r : PyResults),
      mkResults d = .ok r →
      ((d.lookup "response" = Option.none ∨ d.lookup "response" = some PyValue.none) →
        r.docs = .tuple [] ∧ r.hits = .int 0)
      ∧ r.debug = dictGetD d "debug" (.dict [])
      ∧ r.highlighting = dictGetD d "highlighting" (.dict [])
      ∧ r.facets = dictGetD d "facet_counts" (.dict [])
      ∧ r.spellcheck = dictGetD d "spellcheck" (.dict [])
      ∧ r.stats = dictGetD d "stats" (.dict [])
      ∧ r.grouped = dictGetD d "grouped" (.dict [])
      ∧ r.nextCursorMark = dictGetD d "nextCursorMark" PyValue.none
      ∧ (∀ l, r.docs = .list l → resultsLen r = .ok l.length)
      ∧ (∀ l, r.docs = .tuple l → resultsLen r = .ok l.length))
    ∧ (∃ r : PyResults,
        mkResults [("response", .dict [("docs", .list [.dict [("id", .int 1)]]),
                                       ("numFound", .int 10)])] = .ok r
        ∧ resultsLen r = .ok 1 ∧ r.hits = .int 10) := by
  constructor
  · intro d r h
    simp only [mkResults, Except.instMonad, Except.bind, bind, pure, Except.pure] at h
    split at h <;> rename_i hdocs
    · cases h
    · split at h <;> rename_i hhits
      · cases h
      · split at h <;> rename_i hqtime
        · cases h
        · cases h
          refine ⟨?_, rfl, rfl, rfl, rfl, rfl, rfl, rfl, ?_, ?_⟩
          · intro hresp
            have hrp : dictGetD d "response" PyValue.none = PyValue.none := by
              rcases hresp with h1 | h1 <;> simp [dictGetD, h1]
            rw [hrp] at hdocs hhits
            simp only [pyTruthy, if_neg Bool.false_ne_true, pyGet] at hdocs hhits
            simp only [List.lookup_nil] at hdocs hhits
            cases hdocs
            cases hhits
            exact ⟨rfl, rfl⟩
          · intro l hl
            dsimp only at hl
            simp only [resultsLen]
            rw [hl]
            rfl
          · intro l hl
            dsimp only at hl
            simp only [resultsLen]
            rw [hl]
            rfl
  · exact ⟨_, rfl, rfl, rfl⟩

/-- Closed instance of the C9 theorem: the empty decoded response has
the empty document tuple and hit count `0`. -/
theorem claim_C9_results_wrapper_witness :
    (PyResults.docs
        { docs := .tuple [], hits := .int 0, debug := .dict [], highlighting := .dict [],
          facets := .dict [], spellcheck := .dict [], stats := .dict [],
          qtime := PyValue.none, grouped := .dict [], nextCursorMark := PyValue.none })
      = .tuple []
    ∧ (PyResults.hits
        { docs := .tuple [], hits := .int 0, debug := .dict [], highlighting := .dict [],
          facets := .dict [], spellcheck := .dict [], stats := .dict [],
          qtime := PyValue.none, grouped := .dict [], nextCursorMark := PyValue.none })
      = .int 0 :=
  (claim_C9_results_wrapper.1 []
    { docs := .tuple [], hits := .int 0, debug := .dict [], highlighting := .dict [],
      facets := .dict [], spellcheck := .dict [], stats := .dict [],
      qtime := PyValue.none, grouped := .dict [], nextCursorMark := PyValue.none }
    rfl).1 (Or.inl rfl)
